import Mathlib

/-!
Verification of the terminal line-editing engine of mcp-feedback-terminal:
the text cursor model (`Cursor` in packages/client/src/cli/utils/imagePaste.ts,
section `cursor.ts`), the double-press gesture debouncer
(packages/client/src/cli/hooks/useDoublePress.ts), the key dispatch engine
(packages/client/src/cli/hooks/useTextInput.ts) and the paste-burst coalescer
(`TextInput.wrappedOnInput` / `resetPasteTimeout`).

Text is modelled as `List Char` (JS strings, indexed by code unit); offsets are
`Nat` (the code clamps them to be non-negative, so `0 <= offset` is carried by
the type and the remaining invariant content is `offset <= text.length`).
-/

/-- JS `/\s/` whitespace classification: space, \t, \n, \v, \f, \r, NBSP,
Ogham space, the U+2000..U+200A range, LS, PS, NNBSP, MMSP, ideographic space
and the BOM. -/
def isWS (c : Char) : Bool :=
  c = ' ' || c = '\t' || c = '\n' || c.val = 0x0b || c.val = 0x0c || c = '\r' ||
  c.val = 0x00a0 || c.val = 0x1680 || (0x2000 ≤ c.val && c.val ≤ 0x200a) ||
  c.val = 0x2028 || c.val = 0x2029 || c.val = 0x202f || c.val = 0x205f ||
  c.val = 0x3000 || c.val = 0xfeff

/-- `/\s/.test(text[i] ?? '')`: an out-of-range index yields the empty string,
on which the test is `false`. -/
def testWS (cs : List Char) (i : Nat) : Bool :=
  match cs.get? i with
  | some c => isWS c
  | none => false

/-- JS `text.split('\n')`: `n` separators yield `n + 1` (possibly empty)
pieces; the empty string splits to `[""]`. -/
def splitLines : List Char → List (List Char)
  | [] => [[]]
  | c :: rest =>
    match splitLines rest with
    | [] => [[]]
    | l :: ls => if c = '\n' then [] :: l :: ls else (c :: l) :: ls

/-- The `Cursor` class: immutable text buffer, render-width hint (`columns`)
and caret offset. -/
structure Cursor where
  text : List Char
  columns : Nat
  offset : Nat
deriving DecidableEq, Repr

/-- `Cursor.fromText`: `new Cursor(text, columns, Math.max(0, Math.min(offset, text.length)))`.
The incoming offset is an arbitrary integer and is clamped into range. -/
def Cursor.fromText (text : List Char) (columns : Nat) (offset : Int) : Cursor :=
  ⟨text, columns, (max 0 (min offset (text.length : Int))).toNat⟩

/-- `Cursor.equals`: field-by-field structural comparison. -/
def Cursor.equals (c other : Cursor) : Bool :=
  c.text == other.text && c.columns == other.columns && c.offset == other.offset

/-- `Cursor.getLineColumn` (private): split the prefix before the offset on
newlines; the line index is the number of pieces minus one and the column is
the length of the last piece. -/
def Cursor.getLineColumn (c : Cursor) : Nat × Nat :=
  let lines := splitLines (c.text.take c.offset)
  let lineIndex := lines.length - 1
  let lastLine := lines.getD lineIndex []
  (lineIndex, lastLine.length)

/-- `Cursor.getOffsetFromLineColumn` (private): sum of the lengths (plus one
for each newline) of the lines before `lineIndex`, plus the column clamped to
the target line length, the whole clamped to the text length. -/
def Cursor.getOffsetFromLineColumn (c : Cursor) (lineIndex columnIndex : Nat) : Nat :=
  let lines := splitLines c.text
  let base := ((lines.take lineIndex).map (fun l => l.length + 1)).sum
  let targetLine := lines.getD lineIndex []
  min (base + min columnIndex targetLine.length) c.text.length

/-- `Cursor.left`: `Math.max(0, offset - 1)`. -/
def Cursor.left (c : Cursor) : Cursor :=
  ⟨c.text, c.columns, c.offset - 1⟩

/-- `Cursor.right`: `Math.min(text.length, offset + 1)`. -/
def Cursor.right (c : Cursor) : Cursor :=
  ⟨c.text, c.columns, min c.text.length (c.offset + 1)⟩

/-- `Cursor.up`: on the first line return `this`; otherwise move to the same
column (clamped) on the previous line. -/
def Cursor.up (c : Cursor) : Cursor :=
  let lineIndex := c.getLineColumn.1
  let columnIndex := c.getLineColumn.2
  if lineIndex = 0 then c
  else
    let prevLine := (splitLines c.text).getD (lineIndex - 1) []
    let newColumnIndex := min columnIndex prevLine.length
    ⟨c.text, c.columns, c.getOffsetFromLineColumn (lineIndex - 1) newColumnIndex⟩

/-- `Cursor.down`: on the last line (`lineIndex >= lines.length - 1`) return
`this`; otherwise move to the same column (clamped) on the next line. -/
def Cursor.down (c : Cursor) : Cursor :=
  let lines := splitLines c.text
  let lineIndex := c.getLineColumn.1
  let columnIndex := c.getLineColumn.2
  if lines.length - 1 ≤ lineIndex then c
  else
    let nextLine := lines.getD (lineIndex + 1) []
    let newColumnIndex := min columnIndex nextLine.length
    ⟨c.text, c.columns, c.getOffsetFromLineColumn (lineIndex + 1) newColumnIndex⟩

/-- `Cursor.startOfLine`: column 0 of the current line. -/
def Cursor.startOfLine (c : Cursor) : Cursor :=
  ⟨c.text, c.columns, c.getOffsetFromLineColumn c.getLineColumn.1 0⟩

/-- `Cursor.endOfLine`: column = current line length. -/
def Cursor.endOfLine (c : Cursor) : Cursor :=
  let lines := splitLines c.text
  let lineIndex := c.getLineColumn.1
  let currentLine := lines.getD lineIndex []
  ⟨c.text, c.columns, c.getOffsetFromLineColumn lineIndex currentLine.length⟩

/-- First loop of `prevWord`: `while (newOffset > 0 && /\s/.test(text[newOffset - 1] ?? ''))
newOffset--`. -/
def skipWSBack (cs : List Char) : Nat → Nat
  | 0 => 0
  | i + 1 => if testWS cs i = true then skipWSBack cs i else i + 1

/-- Second loop of `prevWord`: `while (newOffset > 0 && !/\s/.test(text[newOffset - 1] ?? ''))
newOffset--`. -/
def skipNonWSBack (cs : List Char) : Nat → Nat
  | 0 => 0
  | i + 1 => if testWS cs i = false then skipNonWSBack cs i else i + 1

/-- First loop of `nextWord`: `while (newOffset < text.length && !/\s/.test(text[newOffset] ?? ''))
newOffset++`. -/
def skipNonWSFwd (cs : List Char) (i : Nat) : Nat :=
  if h : i < cs.length ∧ testWS cs i = false then skipNonWSFwd cs (i + 1) else i
termination_by cs.length - i
decreasing_by
  omega

/-- Second loop of `nextWord`: `while (newOffset < text.length && /\s/.test(text[newOffset] ?? ''))
newOffset++`. -/
def skipWSFwd (cs : List Char) (i : Nat) : Nat :=
  if h : i < cs.length ∧ testWS cs i = true then skipWSFwd cs (i + 1) else i
termination_by cs.length - i
decreasing_by
  omega

/-- `Cursor.prevWord`: skip trailing whitespace, then the run of non-whitespace
immediately before the cursor. -/
def Cursor.prevWord (c : Cursor) : Cursor :=
  ⟨c.text, c.columns, skipNonWSBack c.text (skipWSBack c.text c.offset)⟩

/-- `Cursor.nextWord`: skip the run of non-whitespace at/after the cursor,
then the following whitespace. -/
def Cursor.nextWord (c : Cursor) : Cursor :=
  ⟨c.text, c.columns, skipWSFwd c.text (skipNonWSFwd c.text c.offset)⟩

/-- `Cursor.insert`: splice `str` at the offset; new offset is
`offset + str.length`. -/
def Cursor.insert (c : Cursor) (str : List Char) : Cursor :=
  ⟨c.text.take c.offset ++ str ++ c.text.drop c.offset, c.columns, c.offset + str.length⟩

/-- `Cursor.backspace`: remove the character before the offset; no-op at
offset 0. -/
def Cursor.backspace (c : Cursor) : Cursor :=
  if c.offset = 0 then c
  else ⟨c.text.take (c.offset - 1) ++ c.text.drop c.offset, c.columns, c.offset - 1⟩

/-- `Cursor.del`: remove the character at the offset; no-op at or past the end
of the text. -/
def Cursor.del (c : Cursor) : Cursor :=
  if c.text.length ≤ c.offset then c
  else ⟨c.text.take c.offset ++ c.text.drop (c.offset + 1), c.columns, c.offset⟩

/-- `Cursor.deleteToLineStart`: remove from the start of the current line to
the offset; the offset lands at the line start. -/
def Cursor.deleteToLineStart (c : Cursor) : Cursor :=
  let lineStartOffset := c.getOffsetFromLineColumn c.getLineColumn.1 0
  ⟨c.text.take lineStartOffset ++ c.text.drop c.offset, c.columns, lineStartOffset⟩

/-- `Cursor.deleteToLineEnd`: remove from the offset to the end of the current
line; the offset is unchanged. -/
def Cursor.deleteToLineEnd (c : Cursor) : Cursor :=
  let lines := splitLines c.text
  let lineIndex := c.getLineColumn.1
  let currentLine := lines.getD lineIndex []
  let lineEndOffset := c.getOffsetFromLineColumn lineIndex currentLine.length
  ⟨c.text.take c.offset ++ c.text.drop lineEndOffset, c.columns, c.offset⟩

/-- `Cursor.deleteWordBefore`: delete between `prevWord().offset` and the
offset; the offset lands at `prevWord().offset`. -/
def Cursor.deleteWordBefore (c : Cursor) : Cursor :=
  ⟨c.text.take c.prevWord.offset ++ c.text.drop c.offset, c.columns, c.prevWord.offset⟩

/-- `Cursor.deleteWordAfter`: delete between the offset and
`nextWord().offset`; the offset is unchanged. -/
def Cursor.deleteWordAfter (c : Cursor) : Cursor :=
  ⟨c.text.take c.offset ++ c.text.drop c.nextWord.offset, c.columns, c.offset⟩

/-- `Cursor.render`: if `mask` is non-empty, replace the display text by the
mask repeated `text.length` times; if `cursorChar` is non-empty and the offset
is within the display text, splice `invert cursorChar` at the offset. The
`invert` argument stands for the caller-supplied inversion function (the code
defaults it to `chalk.inverse`). -/
def Cursor.render (c : Cursor) (cursorChar mask : List Char)
    (invert : List Char → List Char) : List Char :=
  let displayText := if mask.isEmpty then c.text else (List.replicate c.text.length mask).flatten
  if cursorChar.isEmpty = false ∧ c.offset ≤ displayText.length then
    displayText.take c.offset ++ invert cursorChar ++ displayText.drop c.offset
  else displayText

/-! ## Gesture debouncer (useDoublePress.ts)

Times are `Int` milliseconds as returned by `Date.now()`. `lastPressTime`
starts at 0; a pending single-press timer is represented by its absolute fire
time (`now + timeout` when armed). -/

/-- Per-gesture debouncer state: `lastPressTime` ref and the pending
single-press timer (absolute fire time), `none` when no timer is armed. -/
structure DebounceState where
  lastPressTime : Int
  pendingFire : Option Int
deriving DecidableEq, Repr

/-- Events observable from the debouncer callbacks, in invocation order. -/
inductive DebEvent where
  | visibility : Bool → DebEvent
  | doublePress : DebEvent
  | singlePress : DebEvent
deriving DecidableEq, Repr

/-- Default `timeout` of `useDoublePress` (ms). -/
def doublePressTimeout : Int := 800

/-- The callback returned by `useDoublePress`, called on each press at time
`now`: cancel any pending timer; if `now - lastPressTime < timeout` this is a
double press (reset `lastPressTime` to 0, `onShowMessage(false)`,
`onDoublePress()`); else record `now`, `onShowMessage(true)` and arm the
single-press timer for `now + timeout`. -/
def press (timeout : Int) (s : DebounceState) (now : Int) : DebounceState × List DebEvent :=
  let timeBetweenPresses := now - s.lastPressTime
  if timeBetweenPresses < timeout then
    (⟨0, none⟩, [DebEvent.visibility false, DebEvent.doublePress])
  else
    (⟨now, some (now + timeout)⟩, [DebEvent.visibility true])

/-- The armed `setTimeout` callback: `onShowMessage(false)` then
`onSinglePress()`, and the timer handle is cleared. -/
def timerFire (s : DebounceState) : DebounceState × List DebEvent :=
  (⟨s.lastPressTime, none⟩, [DebEvent.visibility false, DebEvent.singlePress])

/-- Run a strictly increasing list of press times against the debouncer: an
armed timer whose deadline is strictly before the next press fires first
(a press at or before the deadline cancels it, as `press` clears the timer);
a timer still pending after the last press eventually fires. -/
def runPresses (timeout : Int) (s : DebounceState) : List Int → List DebEvent
  | [] =>
    match s.pendingFire with
    | some _ => (timerFire s).2
    | none => []
  | t :: ts =>
    match s.pendingFire with
    | some d =>
      if d < t then
        let fired := timerFire s
        let pressed := press timeout fired.1 t
        fired.2 ++ pressed.2 ++ runPresses timeout pressed.1 ts
      else
        let pressed := press timeout s t
        pressed.2 ++ runPresses timeout pressed.1 ts
    | none =>
      let pressed := press timeout s t
      pressed.2 ++ runPresses timeout pressed.1 ts

/-! ## Key events and the paste-burst coalescer (TextInput / useTextInput) -/

/-- The ink `Key` flag record, as consumed by the dispatch tables.
`returnFlag` models the `return` field (a Lean keyword). -/
structure Key where
  ctrl : Bool
  meta : Bool
  shift : Bool
  returnFlag : Bool
  escape : Bool
  tab : Bool
  backspace : Bool
  delete : Bool
  upArrow : Bool
  downArrow : Bool
  leftArrow : Bool
  rightArrow : Bool
  pageUp : Bool
  pageDown : Bool
deriving DecidableEq, Repr

/-- The backspace/delete signal tested (identically) at the top of
`TextInput.wrappedOnInput` and `useTextInput.onInput`:
`key.backspace || key.delete || input === '\b' || input === '\x7f' || input === '\x08'`
(`'\b'` and `'\x08'` are the same character). -/
def bsSignal (input : List Char) (key : Key) : Bool :=
  key.backspace || key.delete || input = [Char.ofNat 8] || input = [Char.ofNat 127] ||
    input = [Char.ofNat 8]

/-- `input.startsWith("'/")`: the chunk begins with a quote character followed
by a slash. -/
def startsWithQS : List Char → Bool
  | a :: b :: _ => a = Char.ofNat 39 && b = '/'
  | _ => false

/-- Paste-detection state of `TextInput`: buffered chunks in arrival order,
whether the 50 ms quiet-period timer is pending (`timeoutId !== null`), and
the running total length. -/
structure PasteState where
  chunks : List (List Char)
  pending : Bool
  totalLength : Nat
deriving DecidableEq, Repr

/-- What `TextInput.wrappedOnInput` does with one raw chunk: forward it to
`onInput` (with the given key flags) or append it to the paste buffer. -/
inductive CoalesceAction where
  | forward : List Char → Key → CoalesceAction
  | buffered : CoalesceAction
deriving DecidableEq, Repr

/-- The 50 ms quiet period armed by `resetPasteTimeout`. -/
def pasteQuietMs : Nat := 50

/-- `TextInput.wrappedOnInput`: a backspace/delete chunk bypasses the
coalescer and is forwarded at once with `backspace` forced on; a chunk longer
than 20, or arriving while a timer is pending, or starting with `'/`, is
appended to the buffer and the quiet-period timer is (re)armed; any other
chunk is forwarded unchanged. -/
def wrappedOnInput (s : PasteState) (input : List Char) (key : Key) :
    PasteState × CoalesceAction :=
  if bsSignal input key then
    (s, CoalesceAction.forward input { key with backspace := true })
  else if decide (20 < input.length) || s.pending || startsWithQS input then
    ({ chunks := s.chunks ++ [input], pending := true,
       totalLength := (s.chunks.map List.length).sum + input.length },
     CoalesceAction.buffered)
  else
    (s, CoalesceAction.forward input key)

/-- The quiet-period timer callback armed by `resetPasteTimeout`: join the
buffered chunks in arrival order into the single `onPaste` payload and reset
the buffer to `{ chunks: [], timeoutId: null, totalLength: 0 }`. -/
def pasteTimerFire (s : PasteState) : PasteState × List Char :=
  (⟨[], false, 0⟩, s.chunks.flatten)

/-- Feed a sequence of raw chunks through `wrappedOnInput`, keeping the
resulting paste state. -/
def feedAll (s : PasteState) : List (List Char × Key) → PasteState
  | [] => s
  | p :: rest => feedAll (wrappedOnInput s p.1 p.2).1 rest

/-! ## Key dispatch engine (useTextInput.ts) -/

/-- Side effects invoked by the dispatch handlers, in invocation order.
`offsetSet`/`change` are the commit calls (`setOffset` / `onChange`);
the gesture constructors mark the corresponding debouncer or collaborator
being invoked (`handleCtrlC`, `handleEscapeDouble`, `handleEmptyCtrlD`,
`tryImagePaste`); `historyUp`/`historyDown` are `onHistoryUp`/`onHistoryDown`;
`submit` is `onSubmit(originalValue)`. -/
inductive Effect where
  | offsetSet : Nat → Effect
  | change : List Char → Effect
  | submit : List Char → Effect
  | historyUp : Effect
  | historyDown : Effect
  | ctrlCGesture : Effect
  | escapeGesture : Effect
  | emptyCtrlDGesture : Effect
  | imagePasteAttempt : Effect
deriving DecidableEq, Repr

/-- The commit logic at the end of `onInput`: if the new cursor differs
structurally, `setOffset(next.offset)`, and additionally `onChange(next.text)`
when the text changed. -/
def commit (c next : Cursor) : List Effect :=
  if c.equals next then []
  else Effect.offsetSet next.offset ::
    (if c.text = next.text then [] else [Effect.change next.text])

/-- `upOrHistoryUp`: with cursor movement disabled, fire history-up; otherwise
move up and fire history-up exactly when the moved cursor equals the input
(already on the first line). -/
def upOrHistoryUp (disable : Bool) (c : Cursor) : Cursor × List Effect :=
  if disable then (c, [Effect.historyUp])
  else
    let cursorUp := c.up
    if cursorUp.equals c then (cursorUp, [Effect.historyUp]) else (cursorUp, [])

/-- `downOrHistoryDown`: mirror image of `upOrHistoryUp`. -/
def downOrHistoryDown (disable : Bool) (c : Cursor) : Cursor × List Effect :=
  if disable then (c, [Effect.historyDown])
  else
    let cursorDown := c.down
    if cursorDown.equals c then (cursorDown, [Effect.historyDown]) else (cursorDown, [])

/-- `handleCtrlD`: on an empty buffer route to the empty-buffer interrupt
debouncer and keep the cursor; otherwise delete forward. -/
def handleCtrlD (c : Cursor) : Option Cursor × List Effect :=
  if c.text = [] then (some c, [Effect.emptyCtrlDGesture]) else (some c.del, [])

/-- The control-chord table (`handleCtrl`, built with `mapInput`); unmapped
literals fall through to the no-op `(none, [])`. `l` models `clear()`, which
calls `setOffset(0)` and returns `Cursor.fromText('', columns, 0)`; `v` models
`tryImagePaste`, which always returns the cursor unchanged. -/
def handleCtrl (disable : Bool) (c : Cursor) (input : List Char) :
    Option Cursor × List Effect :=
  if input = ['a'] then (some c.startOfLine, [])
  else if input = ['b'] then (some c.left, [])
  else if input = ['c'] then (some c, [Effect.ctrlCGesture])
  else if input = ['d'] then handleCtrlD c
  else if input = ['e'] then (some c.endOfLine, [])
  else if input = ['f'] then (some c.right, [])
  else if input = ['h'] then (some c.backspace, [])
  else if input = ['k'] then (some c.deleteToLineEnd, [])
  else if input = ['l'] then (some (Cursor.fromText [] c.columns 0), [Effect.offsetSet 0])
  else if input = ['n'] then (some (downOrHistoryDown disable c).1, (downOrHistoryDown disable c).2)
  else if input = ['p'] then (some (upOrHistoryUp disable c).1, (upOrHistoryUp disable c).2)
  else if input = ['u'] then (some c.deleteToLineStart, [])
  else if input = ['v'] then (some c, [Effect.imagePasteAttempt])
  else if input = ['w'] then (some c.deleteWordBefore, [])
  else (none, [])

/-- The meta-chord table (`handleMeta`). -/
def handleMeta (c : Cursor) (input : List Char) : Option Cursor × List Effect :=
  if input = ['b'] then (some c.prevWord, [])
  else if input = ['f'] then (some c.nextWord, [])
  else if input = ['d'] then (some c.deleteWordAfter, [])
  else (none, [])

/-- `handleEnter`: backslash line continuation in multiline mode, meta-return
inserts a newline, otherwise submit the current buffer (and leave the cursor
untouched, returning `undefined`). -/
def handleEnter (multiline : Bool) (key : Key) (c : Cursor) : Option Cursor × List Effect :=
  if multiline = true ∧ 0 < c.offset ∧ c.text.get? (c.offset - 1) = some (Char.ofNat 92) then
    (some (c.backspace.insert [Char.ofNat 10]), [])
  else if key.meta then (some (c.insert [Char.ofNat 10]), [])
  else (none, [Effect.submit c.text])

/-- `mapKey`: the layered dispatch of `useTextInput`, in source order —
backspace/delete flags, return, escape, ctrl/meta arrows, the ctrl table,
pageDown/pageUp, the meta table, tab, plain arrows, then the literal fallback
(raw Home/End sequences, raw backspace bytes, and finally insertion with
`\r` mapped to `\n`). -/
def mapKey (multiline disable : Bool) (key : Key) (c : Cursor) (input : List Char) :
    Option Cursor × List Effect :=
  if key.backspace || key.delete then (some c.backspace, [])
  else if key.returnFlag then handleEnter multiline key c
  else if key.escape then (some c, [Effect.escapeGesture])
  else if key.leftArrow && (key.ctrl || key.meta) then (some c.prevWord, [])
  else if key.rightArrow && (key.ctrl || key.meta) then (some c.nextWord, [])
  else if key.ctrl then handleCtrl disable c input
  else if key.pageDown then (some c.endOfLine, [])
  else if key.pageUp then (some c.startOfLine, [])
  else if key.meta then handleMeta c input
  else if key.tab then (none, [])
  else if key.upArrow then (some (upOrHistoryUp disable c).1, (upOrHistoryUp disable c).2)
  else if key.downArrow then (some (downOrHistoryDown disable c).1, (downOrHistoryDown disable c).2)
  else if key.leftArrow then (some c.left, [])
  else if key.rightArrow then (some c.right, [])
  else if input = [Char.ofNat 27, '[', 'H'] || input = [Char.ofNat 27, '[', '1', '~'] then
    (some c.startOfLine, [])
  else if input = [Char.ofNat 27, '[', 'F'] || input = [Char.ofNat 27, '[', '4', '~'] then
    (some c.endOfLine, [])
  else if input = [Char.ofNat 8] || input = [Char.ofNat 127] then (some c.backspace, [])
  else (some (c.insert (input.map (fun ch => if ch = Char.ofNat 13 then Char.ofNat 10 else ch))), [])

/-- `useTextInput.onInput`: the backspace/delete signal short-circuits every
dispatch rule and applies `backspace()`; otherwise the key is routed through
`mapKey` and, when a cursor is returned, committed. The returned list is the
sequence of observable side effects. -/
def onInput (multiline disable : Bool) (c : Cursor) (input : List Char) (key : Key) :
    List Effect :=
  if bsSignal input key then commit c c.backspace
  else
    match mapKey multiline disable key c input with
    | (some next, effs) => effs ++ commit c next
    | (none, effs) => effs

/-! ## Helper lemmas: skip loops and offset bounds -/

theorem skipWSBack_le (cs : List Char) : ∀ i, skipWSBack cs i ≤ i := by
  intro i
  induction i with
  | zero => simp [skipWSBack]
  | succ i ih =>
    rw [skipWSBack]
    split
    · exact le_trans ih (Nat.le_succ i)
    · exact le_refl _

theorem skipNonWSBack_le (cs : List Char) : ∀ i, skipNonWSBack cs i ≤ i := by
  intro i
  induction i with
  | zero => simp [skipNonWSBack]
  | succ i ih =>
    rw [skipNonWSBack]
    split
    · exact le_trans ih (Nat.le_succ i)
    · exact le_refl _

theorem skipNonWSFwd_ge (cs : List Char) (i : Nat) : i ≤ skipNonWSFwd cs i := by
  have H : ∀ k i, cs.length - i ≤ k → i ≤ skipNonWSFwd cs i := by
    intro k
    induction k with
    | zero =>
      intro i hk
      rw [skipNonWSFwd]
      split
      · next h => exact absurd h.1 (by omega)
      · exact le_refl i
    | succ k ih =>
      intro i hk
      rw [skipNonWSFwd]
      split
      · next h => exact le_trans (Nat.le_succ i) (ih (i + 1) (by omega))
      · exact le_refl i
  exact H cs.length i (by omega)

theorem skipNonWSFwd_le (cs : List Char) (i : Nat) (hi : i ≤ cs.length) :
    skipNonWSFwd cs i ≤ cs.length := by
  have H : ∀ k i, cs.length - i ≤ k → i ≤ cs.length → skipNonWSFwd cs i ≤ cs.length := by
    intro k
    induction k with
    | zero =>
      intro i hk hle
      rw [skipNonWSFwd]
      split
      · next h => exact absurd h.1 (by omega)
      · exact hle
    | succ k ih =>
      intro i hk hle
      rw [skipNonWSFwd]
      split
      · next h => exact ih (i + 1) (by omega) (by omega)
      · exact hle
  exact H cs.length i (by omega) hi

theorem skipWSFwd_ge (cs : List Char) (i : Nat) : i ≤ skipWSFwd cs i := by
  have H : ∀ k i, cs.length - i ≤ k → i ≤ skipWSFwd cs i := by
    intro k
    induction k with
    | zero =>
      intro i hk
      rw [skipWSFwd]
      split
      · next h => exact absurd h.1 (by omega)
      · exact le_refl i
    | succ k ih =>
      intro i hk
      rw [skipWSFwd]
      split
      · next h => exact le_trans (Nat.le_succ i) (ih (i + 1) (by omega))
      · exact le_refl i
  exact H cs.length i (by omega)

theorem skipWSFwd_le (cs : List Char) (i : Nat) (hi : i ≤ cs.length) :
    skipWSFwd cs i ≤ cs.length := by
  have H : ∀ k i, cs.length - i ≤ k → i ≤ cs.length → skipWSFwd cs i ≤ cs.length := by
    intro k
    induction k with
    | zero =>
      intro i hk hle
      rw [skipWSFwd]
      split
      · next h => exact absurd h.1 (by omega)
      · exact hle
    | succ k ih =>
      intro i hk hle
      rw [skipWSFwd]
      split
      · next h => exact ih (i + 1) (by omega) (by omega)
      · exact hle
  exact H cs.length i (by omega) hi

theorem prevWord_offset_le (c : Cursor) : c.prevWord.offset ≤ c.offset :=
  le_trans (skipNonWSBack_le c.text _) (skipWSBack_le c.text c.offset)

theorem nextWord_offset_ge (c : Cursor) : c.offset ≤ c.nextWord.offset :=
  le_trans (skipNonWSFwd_ge c.text c.offset) (skipWSFwd_ge c.text _)

theorem nextWord_offset_le (c : Cursor) (hv : c.offset ≤ c.text.length) :
    c.nextWord.offset ≤ c.text.length :=
  skipWSFwd_le c.text _ (skipNonWSFwd_le c.text c.offset hv)

theorem getOffsetFromLineColumn_le (c : Cursor) (li ci : Nat) :
    c.getOffsetFromLineColumn li ci ≤ c.text.length := by
  simp only [Cursor.getOffsetFromLineColumn]
  exact Nat.min_le_right _ _

/-! ## Per-operation preservation of `offset ≤ text.length` -/

theorem fromText_valid (t : List Char) (k : Nat) (off : Int) :
    (Cursor.fromText t k off).offset ≤ (Cursor.fromText t k off).text.length := by
  simp only [Cursor.fromText]
  omega

theorem left_valid (c : Cursor) (hv : c.offset ≤ c.text.length) :
    c.left.offset ≤ c.left.text.length := by
  simp only [Cursor.left]
  omega

theorem right_valid (c : Cursor) ( _hv : c.offset ≤ c.text.length) :
    c.right.offset ≤ c.right.text.length := by
  simp only [Cursor.right]
  omega

theorem up_valid (c : Cursor) (hv : c.offset ≤ c.text.length) :
    c.up.offset ≤ c.up.text.length := by
  rw [Cursor.up]
  split
  · exact hv
  · exact getOffsetFromLineColumn_le c _ _

theorem down_valid (c : Cursor) (hv : c.offset ≤ c.text.length) :
    c.down.offset ≤ c.down.text.length := by
  rw [Cursor.down]
  split
  · exact hv
  · exact getOffsetFromLineColumn_le c _ _

theorem startOfLine_valid (c : Cursor) ( _hv : c.offset ≤ c.text.length) :
    c.startOfLine.offset ≤ c.startOfLine.text.length :=
  getOffsetFromLineColumn_le c _ _

theorem endOfLine_valid (c : Cursor) ( _hv : c.offset ≤ c.text.length) :
    c.endOfLine.offset ≤ c.endOfLine.text.length :=
  getOffsetFromLineColumn_le c _ _

theorem prevWord_valid (c : Cursor) (hv : c.offset ≤ c.text.length) :
    c.prevWord.offset ≤ c.prevWord.text.length :=
  le_trans (prevWord_offset_le c) hv

theorem nextWord_valid (c : Cursor) (hv : c.offset ≤ c.text.length) :
    c.nextWord.offset ≤ c.nextWord.text.length :=
  nextWord_offset_le c hv

theorem insert_valid (c : Cursor) (s : List Char) (hv : c.offset ≤ c.text.length) :
    (c.insert s).offset ≤ (c.insert s).text.length := by
  simp only [Cursor.insert, List.length_append, List.length_take, List.length_drop]
  omega

theorem backspace_valid (c : Cursor) (hv : c.offset ≤ c.text.length) :
    c.backspace.offset ≤ c.backspace.text.length := by
  rw [Cursor.backspace]
  split
  · exact hv
  · simp only [List.length_append, List.length_take, List.length_drop]
    omega

theorem del_valid (c : Cursor) (hv : c.offset ≤ c.text.length) :
    c.del.offset ≤ c.del.text.length := by
  rw [Cursor.del]
  split
  · exact hv
  · next h =>
    simp only [List.length_append, List.length_take, List.length_drop]
    omega

theorem deleteToLineStart_valid (c : Cursor) (hv : c.offset ≤ c.text.length) :
    c.deleteToLineStart.offset ≤ c.deleteToLineStart.text.length := by
  have h := getOffsetFromLineColumn_le c c.getLineColumn.1 0
  simp only [Cursor.deleteToLineStart, List.length_append, List.length_take, List.length_drop]
  omega

theorem deleteToLineEnd_valid (c : Cursor) (hv : c.offset ≤ c.text.length) :
    c.deleteToLineEnd.offset ≤ c.deleteToLineEnd.text.length := by
  have h := getOffsetFromLineColumn_le c c.getLineColumn.1
    ((splitLines c.text).getD c.getLineColumn.1 []).length
  simp only [Cursor.deleteToLineEnd, List.length_append, List.length_take, List.length_drop]
  omega

theorem deleteWordBefore_valid (c : Cursor) (hv : c.offset ≤ c.text.length) :
    c.deleteWordBefore.offset ≤ c.deleteWordBefore.text.length := by
  have h := prevWord_offset_le c
  simp only [Cursor.deleteWordBefore, List.length_append, List.length_take, List.length_drop]
  omega

theorem deleteWordAfter_valid (c : Cursor) (hv : c.offset ≤ c.text.length) :
    c.deleteWordAfter.offset ≤ c.deleteWordAfter.text.length := by
  have h1 := nextWord_offset_ge c
  have h2 := nextWord_offset_le c hv
  simp only [Cursor.deleteWordAfter, List.length_append, List.length_take, List.length_drop]
  omega

/-- One application of any public `Cursor` operation. -/
inductive Step : Cursor → Cursor → Prop where
  | left (c : Cursor) : Step c c.left
  | right (c : Cursor) : Step c c.right
  | up (c : Cursor) : Step c c.up
  | down (c : Cursor) : Step c c.down
  | startOfLine (c : Cursor) : Step c c.startOfLine
  | endOfLine (c : Cursor) : Step c c.endOfLine
  | prevWord (c : Cursor) : Step c c.prevWord
  | nextWord (c : Cursor) : Step c c.nextWord
  | insert (c : Cursor) (s : List Char) : Step c (c.insert s)
  | backspace (c : Cursor) : Step c c.backspace
  | del (c : Cursor) : Step c c.del
  | deleteToLineStart (c : Cursor) : Step c c.deleteToLineStart
  | deleteToLineEnd (c : Cursor) : Step c c.deleteToLineEnd
  | deleteWordBefore (c : Cursor) : Step c c.deleteWordBefore
  | deleteWordAfter (c : Cursor) : Step c c.deleteWordAfter

theorem step_valid {a b : Cursor} (h : Step a b) (hv : a.offset ≤ a.text.length) :
    b.offset ≤ b.text.length := by
  cases h with
  | left => exact left_valid a hv
  | right => exact right_valid a hv
  | up => exact up_valid a hv
  | down => exact down_valid a hv
  | startOfLine => exact startOfLine_valid a hv
  | endOfLine => exact endOfLine_valid a hv
  | prevWord => exact prevWord_valid a hv
  | nextWord => exact nextWord_valid a hv
  | insert s => exact insert_valid a s hv
  | backspace => exact backspace_valid a hv
  | del => exact del_valid a hv
  | deleteToLineStart => exact deleteToLineStart_valid a hv
  | deleteToLineEnd => exact deleteToLineEnd_valid a hv
  | deleteWordBefore => exact deleteWordBefore_valid a hv
  | deleteWordAfter => exact deleteWordAfter_valid a hv

/-- C1: every reachable `Cursor` state — constructed by `Cursor.fromText`
(which clamps an out-of-range offset into range) and transformed by any
sequence of the public operations `left`, `right`, `up`, `down`,
`startOfLine`, `endOfLine`, `prevWord`, `nextWord`, `insert`, `backspace`,
`del`, `deleteToLineStart`, `deleteToLineEnd`, `deleteWordBefore`,
`deleteWordAfter` — satisfies the invariant `0 ≤ offset ≤ length(text)`
(the lower bound is carried by the `Nat` offset, which `fromText` produces by
clamping the integer argument below at 0). -/
theorem c1_reachable_cursor_offset_in_bounds (t : List Char) (k : Nat) (off : Int)
    (c : Cursor) (h : Relation.ReflTransGen Step (Cursor.fromText t k off) c) :
    c.offset ≤ c.text.length := by
  induction h with
  | refl => exact fromText_valid t k off
  | tail _ hstep ih => exact step_valid hstep ih

/-- Witness for C1: from `fromText "ab" 80 5` (offset clamped 5 → 2) one
`backspace` step reaches a state whose offset is within bounds. -/
theorem c1_reachable_cursor_offset_in_bounds_witness :
    (Cursor.fromText ("ab".toList) 80 5).backspace.offset ≤
      (Cursor.fromText ("ab".toList) 80 5).backspace.text.length :=
  c1_reachable_cursor_offset_in_bounds ("ab".toList) 80 5 _
    (Relation.ReflTransGen.single (Step.backspace _))

/-! ## Debouncer theorems -/

/-- C2: a `press` at time `now` first cancels any pending single-press timer;
if `now - lastPressTime < timeout` it resets `lastPressTime` to 0 and invokes
`on_visibility(false)` then `on_double` (and never `on_single`); otherwise it
sets `lastPressTime = now`, invokes `on_visibility(true)` and arms a timer for
`now + timeout` which, if it fires uncancelled, invokes `on_visibility(false)`
then `on_single`. In particular, two presses 300 ms apart with `timeout = 800`
(the spec's `t = 0` / `t = 300`, placed at a realistic `Date.now()` clock
value `t ≥ 800`, since `lastPressTime` starts at 0) produce
`on_visibility(true)`, `on_visibility(false)`, `on_double`, and `on_single`
never fires. -/
theorem c2_double_press_gesture (timeout : Int) (s : DebounceState) (now t : Int) :
    (now - s.lastPressTime < timeout →
      press timeout s now = (⟨0, none⟩, [DebEvent.visibility false, DebEvent.doublePress])) ∧
    (timeout ≤ now - s.lastPressTime →
      press timeout s now =
        (⟨now, some (now + timeout)⟩, [DebEvent.visibility true]) ∧
      timerFire ⟨now, some (now + timeout)⟩ =
        (⟨now, none⟩, [DebEvent.visibility false, DebEvent.singlePress])) ∧
    (DebEvent.singlePress ∉ (press timeout s now).2) ∧
    (doublePressTimeout ≤ t →
      runPresses doublePressTimeout ⟨0, none⟩ [t, t + 300] =
        [DebEvent.visibility true, DebEvent.visibility false, DebEvent.doublePress] ∧
      DebEvent.singlePress ∉ runPresses doublePressTimeout ⟨0, none⟩ [t, t + 300]) := by
  refine ⟨?_, ?_, ?_, ?_⟩
  · intro h
    simp only [press]
    rw [if_pos h]
  · intro h
    constructor
    · simp only [press]
      rw [if_neg (by omega)]
    · rfl
  · simp only [press]
    split <;> simp
  · intro ht
    have h1 : ¬ ((t : Int) - (0 : Int) < doublePressTimeout) := by
      simp only [doublePressTimeout] at ht ⊢
      omega
    have h2 : (t + 300 : Int) - t < doublePressTimeout := by
      simp only [doublePressTimeout]
      omega
    have e1 : press doublePressTimeout ⟨0, none⟩ t =
        (⟨t, some (t + doublePressTimeout)⟩, [DebEvent.visibility true]) := by
      simp only [press]
      rw [if_neg h1]
    have e2 : press doublePressTimeout ⟨t, some (t + doublePressTimeout)⟩ (t + 300) =
        (⟨0, none⟩, [DebEvent.visibility false, DebEvent.doublePress]) := by
      simp only [press]
      rw [if_pos h2]
    have hnofire : ¬ ((t + doublePressTimeout : Int) < t + 300) := by
      simp only [doublePressTimeout]
      omega
    constructor
    · rw [runPresses]
      simp only [Option.some.injEq]
      rw [e1]
      rw [runPresses]
      simp only
      rw [if_neg hnofire, e2]
      rw [runPresses]
      simp
    · rw [runPresses]
      simp only [Option.some.injEq]
      rw [e1]
      rw [runPresses]
      simp only
      rw [if_neg hnofire, e2]
      rw [runPresses]
      simp

/-- Witness for C2: a concrete double press (delta 500 < 800) and the concrete
two-press run at times 800 and 1100. -/
theorem c2_double_press_gesture_witness :
    press 800 ⟨500, some 1300⟩ 1000 =
      (⟨0, none⟩, [DebEvent.visibility false, DebEvent.doublePress]) ∧
    runPresses doublePressTimeout ⟨0, none⟩ [800, 800 + 300] =
      [DebEvent.visibility true, DebEvent.visibility false, DebEvent.doublePress] :=
  ⟨(c2_double_press_gesture 800 ⟨500, some 1300⟩ 1000 0).1 (by decide),
   ((c2_double_press_gesture 800 ⟨0, none⟩ 0 800).2.2.2 (by decide)).1⟩

/-- C4: a double press resets `lastPressTime` to 0, so the next `press`
(occurring at any realistic `Date.now()` time `t`, i.e. `t ≥ timeout`) takes
the first-press branch: it invokes `on_visibility(true)`, arms the
single-press timer, and never invokes `on_double`. -/
theorem c4_double_press_reset_prevents_third (timeout : Int) (s : DebounceState)
    (now t : Int) (hdouble : now - s.lastPressTime < timeout) (ht : timeout ≤ t) :
    (press timeout s now).1 = ⟨0, none⟩ ∧
    press timeout (press timeout s now).1 t =
      (⟨t, some (t + timeout)⟩, [DebEvent.visibility true]) ∧
    DebEvent.doublePress ∉ (press timeout (press timeout s now).1 t).2 := by
  have h1 : (press timeout s now).1 = ⟨0, none⟩ := by
    simp only [press]
    rw [if_pos hdouble]
  refine ⟨h1, ?_, ?_⟩
  · rw [h1]
    simp only [press]
    rw [if_neg (show ¬ (t - (0 : Int) < timeout) by omega)]
  · rw [h1]
    simp only [press]
    rw [if_neg (show ¬ (t - (0 : Int) < timeout) by omega)]
    simp

/-- Witness for C4: double press at delta 100, third press at time 900 with
the default 800 ms timeout. -/
theorem c4_double_press_reset_prevents_third_witness :
    (press 800 ⟨800, some 1600⟩ 900).1 = ⟨0, none⟩ ∧
    press 800 (press 800 ⟨800, some 1600⟩ 900).1 900 =
      (⟨900, some (900 + 800)⟩, [DebEvent.visibility true]) ∧
    DebEvent.doublePress ∉ (press 800 (press 800 ⟨800, some 1600⟩ 900).1 900).2 :=
  c4_double_press_reset_prevents_third 800 ⟨800, some 1600⟩ 900 900 (by decide) (by decide)

/-! ## Paste-burst coalescer theorems -/

theorem feedAll_pending_chunks (l : List (List Char × Key)) :
    ∀ s : PasteState, s.pending = true → (∀ p ∈ l, bsSignal p.1 p.2 = false) →
      (feedAll s l).chunks = s.chunks ++ l.map Prod.fst ∧ (feedAll s l).pending = true := by
  induction l with
  | nil => intro s hp _; simp [feedAll, hp]
  | cons p rest ih =>
    intro s hp hbs
    have hbsp : bsSignal p.1 p.2 = false := hbs p (List.mem_cons_self p rest)
    have hstep : (wrappedOnInput s p.1 p.2).1 =
        { chunks := s.chunks ++ [p.1], pending := true,
          totalLength := (s.chunks.map List.length).sum + p.1.length } := by
      simp only [wrappedOnInput]
      rw [if_neg (by simp [hbsp])]
      rw [if_pos (by simp [hp])]
    rw [feedAll, hstep]
    have := ih { chunks := s.chunks ++ [p.1], pending := true,
                 totalLength := (s.chunks.map List.length).sum + p.1.length }
      rfl (fun q hq => hbs q (List.mem_cons_of_mem p hq))
    simp only at this
    refine ⟨?_, this.2⟩
    rw [this.1]
    simp

/-- C3: a raw chunk that does not signal backspace/delete is appended to the
coalescing buffer and the 50 ms quiet-period timer is (re)armed exactly when
the chunk is longer than 20, or a buffer is already open (a timer is pending),
or the chunk begins with `'/`; otherwise it is forwarded immediately to the
dispatcher as ordinary typed input with the state untouched. When the
quiet-period timer fires, exactly one `on_paste` payload is emitted: the
concatenation of the buffered chunks in arrival order (as the last conjunct
shows, chunks fed while the buffer is open accumulate in arrival order), and
the buffer is reset to empty. -/
theorem c3_paste_burst_coalescer :
    (∀ (s : PasteState) (input : List Char) (key : Key), bsSignal input key = false →
      ((20 < input.length ∨ s.pending = true ∨ startsWithQS input = true) →
        wrappedOnInput s input key =
          ({ chunks := s.chunks ++ [input], pending := true,
             totalLength := (s.chunks.map List.length).sum + input.length },
           CoalesceAction.buffered)) ∧
      (¬ (20 < input.length ∨ s.pending = true ∨ startsWithQS input = true) →
        wrappedOnInput s input key = (s, CoalesceAction.forward input key))) ∧
    (∀ s : PasteState, pasteTimerFire s =
      ({ chunks := [], pending := false, totalLength := 0 }, s.chunks.flatten)) ∧
    pasteQuietMs = 50 ∧
    (∀ (s : PasteState) (l : List (List Char × Key)), s.pending = true →
      (∀ p ∈ l, bsSignal p.1 p.2 = false) →
      (pasteTimerFire (feedAll s l)).2 = (s.chunks ++ l.map Prod.fst).flatten) := by
  refine ⟨?_, fun s => rfl, rfl, ?_⟩
  · intro s input key hbs
    constructor
    · intro hcond
      simp only [wrappedOnInput]
      rw [if_neg (by simp [hbs])]
      rw [if_pos ?_]
      rcases hcond with h | h | h
      · simp [h]
      · simp [h]
      · simp [h]
    · intro hcond
      have h1 : decide (20 < input.length) = false := by
        simp only [decide_eq_false_iff_not]
        intro h
        exact hcond (Or.inl h)
      have h2 : s.pending = false := by
        cases hps : s.pending
        · rfl
        · exact absurd (Or.inr (Or.inl hps)) hcond
      have h3 : startsWithQS input = false := by
        cases hq : startsWithQS input
        · rfl
        · exact absurd (Or.inr (Or.inr hq)) hcond
      simp only [wrappedOnInput]
      rw [if_neg (by simp [hbs])]
      rw [if_neg (by simp [h1, h2, h3])]
  · intro s l hp hbs
    have := feedAll_pending_chunks l s hp hbs
    simp only [pasteTimerFire, this.1]

/-- A key event with every flag off, used by concrete witnesses. -/
def keyNone : Key :=
  ⟨false, false, false, false, false, false, false, false, false, false, false, false,
   false, false⟩

/-- Witness for C3: a 25-character chunk buffers into an empty idle state; a
short chunk passes through; a short chunk buffers while a timer is pending;
firing the timer on a two-chunk buffer emits their concatenation. -/
theorem c3_paste_burst_coalescer_witness :
    wrappedOnInput ⟨[], false, 0⟩ ("0123456789012345678901234".toList) keyNone =
      ({ chunks := [("0123456789012345678901234".toList)], pending := true,
         totalLength := 25 }, CoalesceAction.buffered) ∧
    wrappedOnInput ⟨[], false, 0⟩ ("hi".toList) keyNone =
      (⟨[], false, 0⟩, CoalesceAction.forward ("hi".toList) keyNone) ∧
    (pasteTimerFire (feedAll ⟨[("ab".toList)], true, 2⟩ [(("cd".toList), keyNone)])).2 =
      ("abcd".toList) := by
  refine ⟨?_, ?_, ?_⟩
  · exact ((c3_paste_burst_coalescer.1 ⟨[], false, 0⟩ _ _ (by decide)).1 (by decide))
  · exact ((c3_paste_burst_coalescer.1 ⟨[], false, 0⟩ _ _ (by decide)).2 (by decide))
  · exact (c3_paste_burst_coalescer.2.2.2 ⟨[("ab".toList)], true, 2⟩
      [(("cd".toList), keyNone)] rfl (by decide)).trans (by decide)

/-! ## Dispatch theorems -/

theorem equals_iff (c d : Cursor) : c.equals d = true ↔ c = d := by
  cases c
  cases d
  simp only [Cursor.equals, Bool.and_eq_true, beq_iff_eq, Cursor.mk.injEq]
  tauto

theorem equals_self (c : Cursor) : c.equals c = true := (equals_iff c c).mpr rfl

theorem commit_self (c : Cursor) : commit c c = [] := by
  simp [commit, equals_self]

/-- C7: a key event whose `backspace` or `delete` flag is set, or whose
literal is `\b`/BS (0x08) or DEL (0x7f), makes the dispatcher apply
`backspace()` — independent of every other flag and before every other
dispatch rule, the whole `onInput` call reduces to committing
`cursor.backspace()` — and such chunks bypass the paste-burst coalescer
entirely: `wrappedOnInput` forwards them immediately (with the `backspace`
flag forced on) and never buffers or delays them. -/
theorem c7_backspace_short_circuit :
    (∀ (multiline disable : Bool) (c : Cursor) (input : List Char) (key : Key),
      bsSignal input key = true →
      onInput multiline disable c input key = commit c c.backspace) ∧
    (∀ (s : PasteState) (input : List Char) (key : Key),
      bsSignal input key = true →
      wrappedOnInput s input key =
        (s, CoalesceAction.forward input { key with backspace := true })) := by
  constructor
  · intro multiline disable c input key h
    simp only [onInput]
    rw [if_pos h]
  · intro s input key h
    simp only [wrappedOnInput]
    rw [if_pos h]

/-- Witness for C7: a DEL literal with `ctrl` and `meta` also set still
backspaces (`"ab"`, offset 2 → offset 1, text `"a"`), and bypasses the
coalescer even while a paste timer is pending. -/
theorem c7_backspace_short_circuit_witness :
    onInput false false (Cursor.mk ("ab".toList) 80 2) [Char.ofNat 127]
        ⟨true, true, false, false, false, false, false, false, false, false, false, false,
         false, false⟩ =
      commit (Cursor.mk ("ab".toList) 80 2) (Cursor.mk ("ab".toList) 80 2).backspace ∧
    wrappedOnInput ⟨[("x".toList)], true, 1⟩ [Char.ofNat 127]
        ⟨true, true, false, false, false, false, false, false, false, false, false, false,
         false, false⟩ =
      (⟨[("x".toList)], true, 1⟩,
       CoalesceAction.forward [Char.ofNat 127]
         ⟨true, true, false, false, false, false, true, false, false, false, false, false,
          false, false⟩) := by
  constructor
  · exact c7_backspace_short_circuit.1 false false _ _ _ (by decide)
  · exact (c7_backspace_short_circuit.2 _ _ _ (by decide)).trans (by decide)

/-- C6: `up()` with the offset on the first line, and `down()` with the offset
on the last line, return a value structurally equal to the input (the same
instance); and in the key dispatch engine a plain up/down arrow whose
directional move returns a cursor structurally equal to the current one
invokes the corresponding history-navigation side effect (`on_history_up` /
`on_history_down`) instead of moving the cursor: the whole `onInput` call
produces exactly that effect and no commit. -/
theorem c6_up_down_boundary_and_history :
    (∀ c : Cursor, c.getLineColumn.1 = 0 → c.up = c) ∧
    (∀ c : Cursor, c.getLineColumn.1 = (splitLines c.text).length - 1 → c.down = c) ∧
    (∀ (multiline : Bool) (c : Cursor) (input : List Char) (key : Key),
      bsSignal input key = false → key.returnFlag = false → key.escape = false →
      key.ctrl = false → key.meta = false → key.pageUp = false → key.pageDown = false →
      key.tab = false → key.upArrow = true → c.up.equals c = true →
      onInput multiline false c input key = [Effect.historyUp]) ∧
    (∀ (multiline : Bool) (c : Cursor) (input : List Char) (key : Key),
      bsSignal input key = false → key.returnFlag = false → key.escape = false →
      key.ctrl = false → key.meta = false → key.pageUp = false → key.pageDown = false →
      key.tab = false → key.upArrow = false → key.downArrow = true →
      c.down.equals c = true →
      onInput multiline false c input key = [Effect.historyDown]) := by
  refine ⟨?_, ?_, ?_, ?_⟩
  · intro c h
    simp only [Cursor.up]
    rw [if_pos h]
  · intro c h
    simp only [Cursor.down]
    rw [if_pos (by omega)]
  · intro multiline c input key hbs hret hesc hctrl hmeta hpu hpd htab hup hupeq
    have hflags : key.backspace = false ∧ key.delete = false := by
      simp only [bsSignal, Bool.or_eq_true, not_or, Bool.not_eq_true] at hbs
      constructor
      · cases hkb : key.backspace
        · rfl
        · rw [hkb] at hbs
          simp at hbs
      · cases hkd : key.delete
        · rfl
        · rw [hkd] at hbs
          simp at hbs
    have hupc : c.up = c := (equals_iff _ _).mp hupeq
    simp only [onInput]
    rw [if_neg (by simp [hbs])]
    simp only [mapKey, hflags.1, hflags.2, hret, hesc, hctrl, hmeta, hpu, hpd, htab, hup,
      Bool.or_self, Bool.false_and, Bool.and_false, Bool.false_or, Bool.or_false,
      if_false, if_true, Bool.false_eq_true, ite_false, ite_true]
    simp only [upOrHistoryUp, hupeq, if_true, ite_true, Bool.false_eq_true, ite_false]
    simp [hupc, commit_self]
  · intro multiline c input key hbs hret hesc hctrl hmeta hpu hpd htab hup hdown hdowneq
    have hflags : key.backspace = false ∧ key.delete = false := by
      simp only [bsSignal, Bool.or_eq_true, not_or, Bool.not_eq_true] at hbs
      constructor
      · cases hkb : key.backspace
        · rfl
        · rw [hkb] at hbs
          simp at hbs
      · cases hkd : key.delete
        · rfl
        · rw [hkd] at hbs
          simp at hbs
    have hdownc : c.down = c := (equals_iff _ _).mp hdowneq
    simp only [onInput]
    rw [if_neg (by simp [hbs])]
    simp only [mapKey, hflags.1, hflags.2, hret, hesc, hctrl, hmeta, hpu, hpd, htab, hup,
      hdown, Bool.or_self, Bool.false_and, Bool.and_false, Bool.false_or, Bool.or_false,
      if_false, if_true, Bool.false_eq_true, ite_false, ite_true]
    simp only [downOrHistoryDown, hdowneq, if_true, ite_true, Bool.false_eq_true, ite_false]
    simp [hdownc, commit_self]

/-- Witness for C6 on `"ab\ncd"`: `up()` at offset 1 (first line) and `down()`
at offset 4 (last line) are identities, and plain up/down arrows there
dispatch to history navigation. -/
theorem c6_up_down_boundary_and_history_witness :
    (Cursor.mk ("ab\ncd".toList) 80 1).up = Cursor.mk ("ab\ncd".toList) 80 1 ∧
    (Cursor.mk ("ab\ncd".toList) 80 4).down = Cursor.mk ("ab\ncd".toList) 80 4 ∧
    onInput false false (Cursor.mk ("ab\ncd".toList) 80 1) ("x".toList)
      ⟨false, false, false, false, false, false, false, false, true, false, false, false,
       false, false⟩ = [Effect.historyUp] ∧
    onInput false false (Cursor.mk ("ab\ncd".toList) 80 4) ("x".toList)
      ⟨false, false, false, false, false, false, false, false, false, true, false, false,
       false, false⟩ = [Effect.historyDown] :=
  ⟨c6_up_down_boundary_and_history.1 _ (by decide),
   c6_up_down_boundary_and_history.2.1 _ (by decide),
   c6_up_down_boundary_and_history.2.2.1 false _ _ _ (by decide) rfl rfl rfl rfl rfl rfl rfl
     rfl (by decide),
   c6_up_down_boundary_and_history.2.2.2 false _ _ _ (by decide) rfl rfl rfl rfl rfl rfl rfl
     rfl rfl (by decide)⟩

/-! ## Word-boundary and frame theorems -/

/-- C10: `prevWord()` never increases and `nextWord()` never decreases the
offset; `deleteWordBefore()` removes exactly the substring between
`prevWord().offset` and the offset (keeping the text before `prevWord().offset`
and from the offset on) and lands the offset at `prevWord().offset`;
`deleteWordAfter()` removes exactly the substring between the offset and
`nextWord().offset` and leaves the offset unchanged. -/
theorem c10_word_boundary_deletions (c : Cursor) :
    c.prevWord.offset ≤ c.offset ∧
    c.offset ≤ c.nextWord.offset ∧
    c.deleteWordBefore =
      ⟨c.text.take c.prevWord.offset ++ c.text.drop c.offset, c.columns,
       c.prevWord.offset⟩ ∧
    c.deleteWordAfter =
      ⟨c.text.take c.offset ++ c.text.drop c.nextWord.offset, c.columns, c.offset⟩ :=
  ⟨prevWord_offset_le c, nextWord_offset_ge c, rfl, rfl⟩

/-- C9: every navigation operation keeps `text` and `columns` (the width hint)
unchanged, moving at most the offset; every edit operation keeps `columns`
unchanged. -/
theorem c9_operation_frame_conditions (c : Cursor) (s : List Char) :
    (c.left.text = c.text ∧ c.left.columns = c.columns) ∧
    (c.right.text = c.text ∧ c.right.columns = c.columns) ∧
    (c.up.text = c.text ∧ c.up.columns = c.columns) ∧
    (c.down.text = c.text ∧ c.down.columns = c.columns) ∧
    (c.startOfLine.text = c.text ∧ c.startOfLine.columns = c.columns) ∧
    (c.endOfLine.text = c.text ∧ c.endOfLine.columns = c.columns) ∧
    (c.prevWord.text = c.text ∧ c.prevWord.columns = c.columns) ∧
    (c.nextWord.text = c.text ∧ c.nextWord.columns = c.columns) ∧
    (c.insert s).columns = c.columns ∧
    c.backspace.columns = c.columns ∧
    c.del.columns = c.columns ∧
    c.deleteToLineStart.columns = c.columns ∧
    c.deleteToLineEnd.columns = c.columns ∧
    c.deleteWordBefore.columns = c.columns ∧
    c.deleteWordAfter.columns = c.columns := by
  refine ⟨⟨rfl, rfl⟩, ⟨rfl, rfl⟩, ?_, ?_, ⟨rfl, rfl⟩, ⟨rfl, rfl⟩, ⟨rfl, rfl⟩, ⟨rfl, rfl⟩,
    rfl, ?_, ?_, rfl, rfl, rfl, rfl⟩
  · constructor <;> (simp only [Cursor.up]; split <;> rfl)
  · constructor <;> (simp only [Cursor.down]; split <;> rfl)
  · simp only [Cursor.backspace]
    split <;> rfl
  · simp only [Cursor.del]
    split <;> rfl

/-! ## Insert/backspace roundtrip -/

theorem backspace_snoc (u v : List Char) (a : Char) (k : Nat) :
    Cursor.backspace ⟨u ++ a :: v, k, u.length + 1⟩ = ⟨u ++ v, k, u.length⟩ := by
  rw [Cursor.backspace]
  rw [if_neg (by simp)]
  have htake : (u ++ a :: v).take u.length = u := by
    rw [List.take_append_eq_append_take, List.take_length, Nat.sub_self]
    simp
  have hdrop : (u ++ a :: v).drop (u.length + 1) = v := by
    have h2 : u ++ a :: v = (u ++ [a]) ++ v := by simp
    have h3 : (u ++ [a]).length = u.length + 1 := by simp
    rw [h2, ← h3, List.drop_left]
  show Cursor.mk ((u ++ a :: v).take (u.length + 1 - 1) ++ (u ++ a :: v).drop (u.length + 1))
      k (u.length + 1 - 1) = _
  congr 1
  · rw [Nat.add_sub_cancel, htake, hdrop]

theorem insert_backspace_iter (t : List Char) (k o : Nat) (ho : o ≤ t.length) :
    ∀ s : List Char, Cursor.backspace^[s.length] (Cursor.insert ⟨t, k, o⟩ s) = ⟨t, k, o⟩ := by
  intro s
  induction s using List.reverseRecOn with
  | nil => simp [Cursor.insert]
  | append_singleton s a ih =>
    have hlen : (s ++ [a]).length = s.length + 1 := by simp
    rw [hlen, Function.iterate_succ_apply]
    have htko : (t.take o).length = o := by
      rw [List.length_take]
      omega
    have hins : Cursor.insert ⟨t, k, o⟩ (s ++ [a]) =
        ⟨(t.take o ++ s) ++ a :: t.drop o, k, (t.take o ++ s).length + 1⟩ := by
      show Cursor.mk (t.take o ++ (s ++ [a]) ++ t.drop o) k (o + (s ++ [a]).length) = _
      congr 1
      · simp
      · simp only [List.length_append, htko, List.length_singleton]
        omega
    rw [hins, backspace_snoc]
    have hback : (⟨(t.take o ++ s) ++ t.drop o, k, (t.take o ++ s).length⟩ : Cursor) =
        Cursor.insert ⟨t, k, o⟩ s := by
      show _ = Cursor.mk (t.take o ++ s ++ t.drop o) k (o + s.length)
      congr 1
      simp only [List.length_append, htko]
    rw [hback, ih]

/-- C8: for a cursor satisfying the `offset ≤ length(text)` invariant and a
non-empty string `s`, `insert(s)` (which splices `s` at the offset and sets
the new offset to `offset + length(s)`) followed by `length(s)` applications
of `backspace()` restores exactly the original text and offset. -/
theorem c8_insert_backspace_roundtrip (c : Cursor) (s : List Char)
    (hv : c.offset ≤ c.text.length) ( _hs : s ≠ []) :
    Cursor.backspace^[s.length] (c.insert s) = c := by
  cases c with
  | mk t k o => exact insert_backspace_iter t k o hv s

/-- Witness for C8: inserting `"xy"` into `"ab"` at offset 1 and backspacing
twice restores the original cursor. -/
theorem c8_insert_backspace_roundtrip_witness :
    Cursor.backspace^[("xy".toList).length]
        ((Cursor.mk ("ab".toList) 80 1).insert ("xy".toList)) =
      Cursor.mk ("ab".toList) 80 1 :=
  c8_insert_backspace_roundtrip (Cursor.mk ("ab".toList) 80 1) ("xy".toList)
    (by decide) (by decide)

/-! ## Width-hint noninterference -/

/-- Replace only the `columns` (width-hint) field of a cursor. -/
def setCols (c : Cursor) (k : Nat) : Cursor := ⟨c.text, k, c.offset⟩

theorem up_setCols (c : Cursor) (k : Nat) : (setCols c k).up = setCols c.up k := by
  have hglc : (setCols c k).getLineColumn = c.getLineColumn := rfl
  have hgofc : ∀ li ci, (setCols c k).getOffsetFromLineColumn li ci =
      c.getOffsetFromLineColumn li ci := fun _ _ => rfl
  have htext : (setCols c k).text = c.text := rfl
  simp only [Cursor.up, hglc, hgofc, htext]
  by_cases h : c.getLineColumn.1 = 0
  · simp [h, setCols]
  · simp [h, setCols]

theorem down_setCols (c : Cursor) (k : Nat) : (setCols c k).down = setCols c.down k := by
  have hglc : (setCols c k).getLineColumn = c.getLineColumn := rfl
  have hgofc : ∀ li ci, (setCols c k).getOffsetFromLineColumn li ci =
      c.getOffsetFromLineColumn li ci := fun _ _ => rfl
  have htext : (setCols c k).text = c.text := rfl
  simp only [Cursor.down, hglc, hgofc, htext]
  by_cases h : (splitLines c.text).length - 1 ≤ c.getLineColumn.1
  · simp [h, setCols]
  · simp [h, setCols]

theorem backspace_setCols (c : Cursor) (k : Nat) :
    (setCols c k).backspace = setCols c.backspace k := by
  have hoff : (setCols c k).offset = c.offset := rfl
  have htext : (setCols c k).text = c.text := rfl
  simp only [Cursor.backspace, hoff, htext]
  by_cases h : c.offset = 0
  · simp [h, setCols]
  · simp [h, setCols]

theorem del_setCols (c : Cursor) (k : Nat) : (setCols c k).del = setCols c.del k := by
  have hoff : (setCols c k).offset = c.offset := rfl
  have htext : (setCols c k).text = c.text := rfl
  simp only [Cursor.del, hoff, htext]
  by_cases h : c.text.length ≤ c.offset
  · simp [h, setCols]
  · simp [h, setCols]

/-- C5: the width hint (`columns`) is not consulted by any navigation or edit
operation, nor by `render`: two cursors with equal text and offset but
different width hints produce results with equal text and equal offset under
every operation (`left`, `right`, `up`, `down`, `startOfLine`, `endOfLine`,
`prevWord`, `nextWord`, `insert`, `backspace`, `del`, `deleteToLineStart`,
`deleteToLineEnd`, `deleteWordBefore`, `deleteWordAfter`), and `render`
produces the same display string — the two runs differ only in the stored
width-hint field. -/
theorem c5_width_hint_noninterference (t : List Char) (k1 k2 o : Nat) (s cg m : List Char)
    (inv : List Char → List Char) :
    ((Cursor.mk t k1 o).left.text = (Cursor.mk t k2 o).left.text ∧
      (Cursor.mk t k1 o).left.offset = (Cursor.mk t k2 o).left.offset) ∧
    ((Cursor.mk t k1 o).right.text = (Cursor.mk t k2 o).right.text ∧
      (Cursor.mk t k1 o).right.offset = (Cursor.mk t k2 o).right.offset) ∧
    ((Cursor.mk t k1 o).up.text = (Cursor.mk t k2 o).up.text ∧
      (Cursor.mk t k1 o).up.offset = (Cursor.mk t k2 o).up.offset) ∧
    ((Cursor.mk t k1 o).down.text = (Cursor.mk t k2 o).down.text ∧
      (Cursor.mk t k1 o).down.offset = (Cursor.mk t k2 o).down.offset) ∧
    ((Cursor.mk t k1 o).startOfLine.text = (Cursor.mk t k2 o).startOfLine.text ∧
      (Cursor.mk t k1 o).startOfLine.offset = (Cursor.mk t k2 o).startOfLine.offset) ∧
    ((Cursor.mk t k1 o).endOfLine.text = (Cursor.mk t k2 o).endOfLine.text ∧
      (Cursor.mk t k1 o).endOfLine.offset = (Cursor.mk t k2 o).endOfLine.offset) ∧
    ((Cursor.mk t k1 o).prevWord.text = (Cursor.mk t k2 o).prevWord.text ∧
      (Cursor.mk t k1 o).prevWord.offset = (Cursor.mk t k2 o).prevWord.offset) ∧
    ((Cursor.mk t k1 o).nextWord.text = (Cursor.mk t k2 o).nextWord.text ∧
      (Cursor.mk t k1 o).nextWord.offset = (Cursor.mk t k2 o).nextWord.offset) ∧
    (((Cursor.mk t k1 o).insert s).text = ((Cursor.mk t k2 o).insert s).text ∧
      ((Cursor.mk t k1 o).insert s).offset = ((Cursor.mk t k2 o).insert s).offset) ∧
    ((Cursor.mk t k1 o).backspace.text = (Cursor.mk t k2 o).backspace.text ∧
      (Cursor.mk t k1 o).backspace.offset = (Cursor.mk t k2 o).backspace.offset) ∧
    ((Cursor.mk t k1 o).del.text = (Cursor.mk t k2 o).del.text ∧
      (Cursor.mk t k1 o).del.offset = (Cursor.mk t k2 o).del.offset) ∧
    ((Cursor.mk t k1 o).deleteToLineStart.text = (Cursor.mk t k2 o).deleteToLineStart.text ∧
      (Cursor.mk t k1 o).deleteToLineStart.offset =
        (Cursor.mk t k2 o).deleteToLineStart.offset) ∧
    ((Cursor.mk t k1 o).deleteToLineEnd.text = (Cursor.mk t k2 o).deleteToLineEnd.text ∧
      (Cursor.mk t k1 o).deleteToLineEnd.offset =
        (Cursor.mk t k2 o).deleteToLineEnd.offset) ∧
    ((Cursor.mk t k1 o).deleteWordBefore.text = (Cursor.mk t k2 o).deleteWordBefore.text ∧
      (Cursor.mk t k1 o).deleteWordBefore.offset =
        (Cursor.mk t k2 o).deleteWordBefore.offset) ∧
    ((Cursor.mk t k1 o).deleteWordAfter.text = (Cursor.mk t k2 o).deleteWordAfter.text ∧
      (Cursor.mk t k1 o).deleteWordAfter.offset =
        (Cursor.mk t k2 o).deleteWordAfter.offset) ∧
    (Cursor.mk t k1 o).render cg m inv = (Cursor.mk t k2 o).render cg m inv := by
  refine ⟨⟨rfl, rfl⟩, ⟨rfl, rfl⟩, ?_, ?_, ⟨rfl, rfl⟩, ⟨rfl, rfl⟩, ⟨rfl, rfl⟩, ⟨rfl, rfl⟩,
    ⟨rfl, rfl⟩, ?_, ?_, ⟨rfl, rfl⟩, ⟨rfl, rfl⟩, ⟨rfl, rfl⟩, ⟨rfl, rfl⟩, rfl⟩
  · have h : (Cursor.mk t k1 o).up = setCols ((Cursor.mk t k2 o).up) k1 :=
      up_setCols (Cursor.mk t k2 o) k1
    rw [h]
    exact ⟨rfl, rfl⟩
  · have h : (Cursor.mk t k1 o).down = setCols ((Cursor.mk t k2 o).down) k1 :=
      down_setCols (Cursor.mk t k2 o) k1
    rw [h]
    exact ⟨rfl, rfl⟩
  · have h : (Cursor.mk t k1 o).backspace = setCols ((Cursor.mk t k2 o).backspace) k1 :=
      backspace_setCols (Cursor.mk t k2 o) k1
    rw [h]
    exact ⟨rfl, rfl⟩
  · have h : (Cursor.mk t k1 o).del = setCols ((Cursor.mk t k2 o).del) k1 :=
      del_setCols (Cursor.mk t k2 o) k1
    rw [h]
    exact ⟨rfl, rfl⟩
